import Mathlib

/-!
Verification development for the ACP client of the obsidian-assistent plugin.

The definitions below are a shallow embedding of the `AcpClient` class
(path sandboxing, file read/write handlers, session lifecycle, disconnect,
and session-update fan-out).  Pure functions are translated directly;
stateful methods become explicit state-passing functions, and the
event-loop interleaving relevant to session memoization is modelled as a
small-step machine driven by an explicit schedule of events.
-/

/-- Structured RPC errors raised by the client-side handlers, mirroring
`acp.RequestError.invalidParams`, `resourceNotFound` and `methodNotFound`. -/
inductive RequestError
  | invalidParams (message : String)
  | resourceNotFound (path : String)
  | methodNotFound (method : String)
deriving DecidableEq

/-- Embeds `normalizeSlashes`: `value.replace(/\\/g, "/")`. -/
def normalizeSlashes (s : String) : String :=
  String.mk (s.data.map (fun c => if c = '\\' then '/' else c))

/-- Removal of trailing slashes, embedding `.replace(/\/+$/, "")`. -/
def dropTrailingSlashes (s : String) : String :=
  String.mk ((s.data.reverse.dropWhile (fun c => c = '/')).reverse)

/-- Removal of leading slashes, embedding `.replace(/^\/+/, "")`. -/
def stripLeadingSlashes (s : String) : String :=
  String.mk (s.data.dropWhile (fun c => c = '/'))

/-- Boolean prefix test on character lists (JS `String.prototype.startsWith`). -/
def chStarts : List Char → List Char → Bool
  | _, [] => true
  | [], _ :: _ => false
  | c :: s, p :: ps => (c == p) && chStarts s ps

/-- Embeds `normalizedPath.startsWith(...)` from `resolveVaultPath`. -/
def strStarts (s pre : String) : Bool :=
  chStarts s.data pre.data

/-- Embeds `isAbsolutePath`: starts with `/` or matches `^[A-Za-z]:\/`
(`Char.isAlpha` is exactly ASCII `[A-Za-z]`). -/
def isAbsolutePath (value : String) : Bool :=
  strStarts value "/" ||
    (match value.data with
     | c :: ':' :: '/' :: _ => c.isAlpha
     | _ => false)

/-- Collapses every run of slashes or backslashes into a single `/`
(the separator cleanup performed by Obsidian's `normalizePath`). -/
def collapseSlashes : List Char → List Char
  | [] => []
  | c :: rest =>
    let t := collapseSlashes rest
    if c = '/' ∨ c = '\\' then
      match t with
      | '/' :: tail => '/' :: tail
      | _ => '/' :: t
    else c :: t

/-- Embeds Obsidian's `normalizePath` (an external library function used by
`resolveVaultPath`): collapse separator runs into `/`, trim leading and
trailing separators, and map the empty result to `"/"`.  The Unicode NFC
normalization and non-breaking-space replacement that the library also
performs are omitted; they are the identity on ASCII input and none of the
separator or traversal-segment behaviour proved below depends on them. -/
def obsidianNormalizePath (s : String) : String :=
  let collapsed := collapseSlashes s.data
  let trimmed := ((collapsed.dropWhile (fun c => c = '/')).reverse.dropWhile
      (fun c => c = '/')).reverse
  if trimmed = [] then "/" else String.mk trimmed

/-- Character-list split on a separator, mirroring JS `String.prototype.split`
with a one-character separator (always returns at least one piece). -/
def splitCharsOn (sep : Char) : List Char → List (List Char)
  | [] => [[]]
  | c :: rest =>
    if c = sep then [] :: splitCharsOn sep rest
    else
      match splitCharsOn sep rest with
      | [] => [[c]]
      | l :: ls => (c :: l) :: ls

/-- Embeds `path.split("/")` as used by `ensureSafeRelative` and
`ensureParentFolder`. -/
def splitSegments (s : String) : List String :=
  (splitCharsOn '/' s.data).map String.mk

/-- Embeds `ensureSafeRelative`: reject any path one of whose `/`-separated
segments is `..`. -/
def ensureSafeRelative (path : String) : Except RequestError String :=
  if (splitSegments path).contains ".." then
    Except.error (RequestError.invalidParams "Path traversal is not allowed")
  else
    Except.ok path

/-- The normalized, trailing-slash-trimmed vault base path
(`normalizeSlashes(basePath).replace(/\/+$/, "")` in `resolveVaultPath`). -/
def vaultBaseNormalized (b : String) : String :=
  dropTrailingSlashes (normalizeSlashes b)

/-- Embeds `normalizedPath.slice(n)` (character-based; the source operates on
UTF-16 code units, which agrees on the ASCII paths considered here). -/
def strDrop (s : String) (n : Nat) : String :=
  String.mk (s.data.drop n)

/-- The no-base branch of `resolveVaultPath`: strip leading slashes and
normalize, then run the traversal check. -/
def resolveFallback (normalizedPath : String) : Except RequestError String :=
  ensureSafeRelative (obsidianNormalizePath (stripLeadingSlashes normalizedPath))

/-- The with-base branch of `resolveVaultPath` over the already
slash-normalized candidate: the base-equality sentinel, the base-prefix
strip, the already-relative case, and the outside-the-vault rejection.  A
present-but-empty base path is falsy in the source's `if (basePath)` test,
hence the leading `b = ""` case taking the fallback. -/
def resolveWithBase (b : String) (normalizedPath : String) :
    Except RequestError String :=
  if b = "" then resolveFallback normalizedPath
  else if normalizedPath = vaultBaseNormalized b then Except.ok ""
  else if strStarts normalizedPath (vaultBaseNormalized b ++ "/") then
    ensureSafeRelative
      (obsidianNormalizePath
        (strDrop normalizedPath ((vaultBaseNormalized b).data.length + 1)))
  else if !isAbsolutePath normalizedPath then
    ensureSafeRelative (obsidianNormalizePath normalizedPath)
  else
    Except.error (RequestError.invalidParams "Path is outside the vault")

/-- Embeds `resolveVaultPath`.  `basePath` is the result of
`getVaultBasePath()` (`none` when the vault adapter is not a desktop
`FileSystemAdapter`). -/
def resolveVaultPath (basePath : Option String) (path : String) :
    Except RequestError String :=
  match basePath with
  | none => resolveFallback (normalizeSlashes path)
  | some b => resolveWithBase b (normalizeSlashes path)

theorem ensureSafeRelative_ok {q r : String}
    (h : ensureSafeRelative q = Except.ok r) :
    r = q ∧ ".." ∉ splitSegments r := by
  unfold ensureSafeRelative at h
  by_cases hc : ".." ∈ splitSegments q
  · simp [hc] at h
  · simp [hc] at h
    refine ⟨h.symm, ?_⟩
    rw [← h]
    exact hc

theorem ensureSafeRelative_error {q : String} {e : RequestError}
    (h : ensureSafeRelative q = Except.error e) :
    e = RequestError.invalidParams "Path traversal is not allowed" := by
  unfold ensureSafeRelative at h
  by_cases hc : ".." ∈ splitSegments q
  · simp [hc] at h
    exact h.symm
  · simp [hc] at h

/-- Split on the regex `\r?\n` as in `content.split(/\r?\n/)`: both `\r\n`
and a bare `\n` end a line; a `\r` not followed by `\n` stays in the line. -/
def splitCharsRN : List Char → List (List Char)
  | [] => [[]]
  | '\r' :: '\n' :: rest => [] :: splitCharsRN rest
  | '\n' :: rest => [] :: splitCharsRN rest
  | c :: rest =>
    match splitCharsRN rest with
    | [] => [[c]]
    | l :: ls => (c :: l) :: ls

/-- The line list of a file's content, per `sliceTextByLine`'s split. -/
def splitLinesRN (s : String) : List String :=
  (splitCharsRN s.data).map String.mk

/-- Validity test for the optional `line`/`limit` parameters: JS rejects
`!Number.isInteger(v) || v < 1`; in this `Int` model the integrality test is
vacuous and only `v < 1` remains (non-integer numeric inputs fall outside the
embedding). -/
def optIntInvalid (v : Option Int) : Bool :=
  match v with
  | none => false
  | some n => n < 1

/-- Embeds `sliceTextByLine` of `AcpClient`. -/
def sliceTextByLine (content : String) (line limit : Option Int) :
    Except RequestError String :=
  if optIntInvalid line then
    Except.error (RequestError.invalidParams "Line must be a positive integer")
  else if optIntInvalid limit then
    Except.error (RequestError.invalidParams "Limit must be a positive integer")
  else if line.isNone && limit.isNone then
    Except.ok content
  else
    let lines := splitLinesRN content
    let start : Int := (line.getD 1) - 1
    if start ≥ (lines.length : Int) then Except.ok ""
    else
      let count : Nat :=
        match limit with
        | none => lines.length
        | some m => m.toNat
      Except.ok (String.intercalate "\n" ((lines.drop start.toNat).take count))

/-- Entries of the vault abstraction (`TFile` with its content, or `TFolder`). -/
inductive VEntry
  | vfile (content : String)
  | vfolder
deriving DecidableEq

/-- The vault keyed by vault-relative path (`getAbstractFileByPath` lookup). -/
def Vault : Type := List (String × VEntry)

/-- Lookup in the vault, embedding `app.vault.getAbstractFileByPath`. -/
def vaultGet (v : Vault) (path : String) : Option VEntry :=
  match v with
  | [] => none
  | e :: rest => if e.1 = path then some e.2 else vaultGet rest path

/-- Replace the entry at `path`, embedding `app.vault.modify`. -/
def vaultSet (v : Vault) (path : String) (entry : VEntry) : Vault :=
  match v with
  | [] => []
  | e :: rest =>
    if e.1 = path then (path, entry) :: rest else e :: vaultSet rest path entry

/-- Vault interactions performed by the file handlers, in order; used to show
that rejected requests perform no vault access at all. -/
inductive VaultOp
  | lookup (path : String)
  | read (path : String)
  | modify (path : String) (content : String)
  | create (path : String) (content : String)
  | createFolder (path : String)
deriving DecidableEq

/-- Embeds `readTextFile`: sandbox the path, reject the vault root, look the
file up, read it and slice.  The second component is the trace of vault
operations actually performed. -/
def readTextFileStep (basePath : Option String) (vault : Vault) (path : String)
    (line limit : Option Int) : Except RequestError String × List VaultOp :=
  match resolveVaultPath basePath path with
  | Except.error e => (Except.error e, [])
  | Except.ok vaultPath =>
    if vaultPath = "" then
      (Except.error (RequestError.invalidParams "Path points to vault root"), [])
    else
      match vaultGet vault vaultPath with
      | some (VEntry.vfile content) =>
        (sliceTextByLine content line limit,
         [VaultOp.lookup vaultPath, VaultOp.read vaultPath])
      | some VEntry.vfolder =>
        (Except.error (RequestError.resourceNotFound path), [VaultOp.lookup vaultPath])
      | none =>
        (Except.error (RequestError.resourceNotFound path), [VaultOp.lookup vaultPath])

/-- Embeds `ensureParentFolder`: create the parent folder when missing, fail
when the parent exists but is not a folder. -/
def ensureParentFolderStep (vault : Vault) (path : String) :
    Except RequestError Vault × List VaultOp :=
  let parts := splitSegments path
  if parts.length ≤ 1 then (Except.ok vault, [])
  else
    let folderPath := String.intercalate "/" parts.dropLast
    match vaultGet vault folderPath with
    | none =>
      (Except.ok ((folderPath, VEntry.vfolder) :: vault),
       [VaultOp.lookup folderPath, VaultOp.createFolder folderPath])
    | some VEntry.vfolder => (Except.ok vault, [VaultOp.lookup folderPath])
    | some (VEntry.vfile _) =>
      (Except.error (RequestError.invalidParams "Parent path is not a folder"),
       [VaultOp.lookup folderPath])

/-- Embeds `writeTextFile`: sandbox the path, reject the vault root, ensure
the parent folder, then modify an existing file, reject a non-file entry, or
create a new file. -/
def writeTextFileStep (basePath : Option String) (vault : Vault)
    (path content : String) : Except RequestError Vault × List VaultOp :=
  match resolveVaultPath basePath path with
  | Except.error e => (Except.error e, [])
  | Except.ok vaultPath =>
    if vaultPath = "" then
      (Except.error (RequestError.invalidParams "Path points to vault root"), [])
    else
      match ensureParentFolderStep vault vaultPath with
      | (Except.error e, ops) => (Except.error e, ops)
      | (Except.ok vault1, ops) =>
        match vaultGet vault1 vaultPath with
        | some (VEntry.vfile _) =>
          (Except.ok (vaultSet vault1 vaultPath (VEntry.vfile content)),
           ops ++ [VaultOp.lookup vaultPath, VaultOp.modify vaultPath content])
        | some VEntry.vfolder =>
          (Except.error (RequestError.invalidParams "Path points to a non-file entry"),
           ops ++ [VaultOp.lookup vaultPath])
        | none =>
          (Except.ok ((vaultPath, VEntry.vfile content) :: vault1),
           ops ++ [VaultOp.lookup vaultPath, VaultOp.create vaultPath content])

/-- The mutable fields of `AcpClient` that make up the connection/session
state.  Process and connection handles are identified by numeric tokens;
`initializationPromise` holds the token of the connection whose `initialize`
round trip it memoizes, and `sessionPromise` holds the session id with which
the memoized `newSession` future resolves (this sequential model evaluates
the success path, where awaited futures have resolved). -/
structure ClientState where
  agentProcess : Option Nat
  connection : Option Nat
  initializationPromise : Option Nat
  sessionPromise : Option String
  sessionId : Option String
deriving DecidableEq

/-- The state with every cached field cleared. -/
def clearedState : ClientState :=
  { agentProcess := none, connection := none, initializationPromise := none,
    sessionPromise := none, sessionId := none }

/-- Embeds `resetConnectionState(agentProcess?)`: when an exiting process is
given and a current process exists and they differ, the stale event is
ignored; otherwise every cached field is cleared. -/
def resetConnectionState (st : ClientState) (exited : Option Nat) : ClientState :=
  match exited, st.agentProcess with
  | some p, some q => if p = q then clearedState else st
  | _, _ => clearedState

/-- Embeds the `exit` listener registered in `initialize()`:
`agentProcess.on("exit", ... resetConnectionState(agentProcess))`. -/
def onProcessExit (st : ClientState) (exitedPid : Nat) : ClientState :=
  resetConnectionState st (some exitedPid)

/-- Signals sent to the agent process. -/
inductive Sig
  | sigterm
  | sigkill
deriving DecidableEq

/-- Observable actions `disconnect()` performs on the agent process. -/
inductive ProcAction
  | endStdin (pid : Nat)
  | kill (pid : Nat) (s : Sig)
deriving DecidableEq

/-- Embeds `disconnect()`: end stdin, send SIGTERM, arm the 5-second
escalation timer, null the process field, and clear all cached state.  The
result is the new state, the synchronous process actions in order, and
whether the escalation timer was armed. -/
def disconnectStep (st : ClientState) : ClientState × List ProcAction × Bool :=
  match st.agentProcess with
  | some p =>
    (resetConnectionState { st with agentProcess := none } none,
     [ProcAction.endStdin p, ProcAction.kill p Sig.sigterm], true)
  | none => (resetConnectionState st none, [], false)

/-- Embeds the timer callback armed by `disconnect()`:
`if (this.agentProcess) this.agentProcess.kill("SIGKILL")`.  It reads the
`agentProcess` field at fire time (five seconds later), not the process that
was being disconnected. -/
def fireDisconnectTimeout (st : ClientState) : List ProcAction :=
  match st.agentProcess with
  | some q => [ProcAction.kill q Sig.sigkill]
  | none => []

/-- Responses the remote agent supplies in a run: the pid and connection
token produced by a fresh spawn, the session id `newSession` resolves with,
and the vault base path used as the session's working directory. -/
structure AgentEnv where
  pid : Nat
  connId : Nat
  sessionId : String
  basePath : Option String
deriving DecidableEq

/-- Outbound RPC calls tracked by the sequential lifecycle model. -/
inductive RpcCall
  | rpcInit
  | rpcNewSession
deriving DecidableEq

/-- Failures `ensureSession()` can throw locally (`throw new Error(...)`). -/
inductive ClientFailure
  | connectionUnavailable
  | vaultPathUnavailable
deriving DecidableEq

/-- Embeds `initialize()` on the success path: return the memoized future if
present; otherwise spawn the process and build the connection when absent,
then issue the `initialize` RPC and memoize it.  Returns the new state and
the RPC calls issued. -/
def initializeStep (env : AgentEnv) (st : ClientState) : ClientState × List RpcCall :=
  if st.initializationPromise.isSome then (st, [])
  else
    let st1 :=
      if st.connection.isNone then
        { st with agentProcess := some env.pid, connection := some env.connId }
      else st
    ({ st1 with initializationPromise := some env.connId }, [RpcCall.rpcInit])

/-- Embeds `ensureSession()` on the sequential success path: await
`initialize()`, return a cached session id, otherwise memoize the
`newSession` future (requiring the vault base path) and await it, caching
and returning the fresh session id. -/
def ensureSessionStep (env : AgentEnv) (st : ClientState) :
    ClientState × List RpcCall × Except ClientFailure String :=
  let p := initializeStep env st
  let st1 := p.1
  let calls1 := p.2
  match st1.sessionId with
  | some sid => (st1, calls1, Except.ok sid)
  | none =>
    match st1.connection with
    | none => (st1, calls1, Except.error ClientFailure.connectionUnavailable)
    | some _ =>
      match st1.sessionPromise with
      | some sid => ({ st1 with sessionId := some sid }, calls1, Except.ok sid)
      | none =>
        match env.basePath with
        | none => (st1, calls1, Except.error ClientFailure.vaultPathUnavailable)
        | some _ =>
          ({ st1 with sessionPromise := some env.sessionId,
                      sessionId := some env.sessionId },
           calls1 ++ [RpcCall.rpcNewSession], Except.ok env.sessionId)

/-- Behaviour of a session-update handler on one notification: it either
resolves or rejects with an error value. -/
inductive HOutcome
  | hok
  | hthrow (e : Nat)
deriving DecidableEq

/-- Awaiting a handler, as an `Except` over its error value. -/
def hrun (h : HOutcome) : Except Nat Unit :=
  match h with
  | HOutcome.hok => Except.ok ()
  | HOutcome.hthrow e => Except.error e

/-- One delivered invocation: the registry subscriber at a registration
index, or the constructor-supplied legacy `onSessionUpdate` callback. -/
inductive Invoked
  | registry (idx : Nat)
  | legacy
deriving DecidableEq

/-- Embeds the `for (const handler of this.sessionUpdateHandlers)` loop of
`sessionUpdate`: each handler is awaited inside a `try`/`catch` whose catch
only logs, so the loop continues identically on success and on throw.  The
result is the invocation trace. -/
def runUpdateLoop (i : Nat) (hs : List HOutcome) : List Invoked :=
  match hs with
  | [] => []
  | h :: rest =>
    match hrun h with
    | Except.ok _ => Invoked.registry i :: runUpdateLoop (i + 1) rest
    | Except.error _ => Invoked.registry i :: runUpdateLoop (i + 1) rest

/-- Embeds `sessionUpdate`: run the registry loop, then await the optional
legacy `onSessionUpdate` callback outside any `try`/`catch`, so its rejection
becomes the rejection of `sessionUpdate` itself.  Returns the invocation
trace and the overall outcome. -/
def sessionUpdateStep (hs : List HOutcome) (legacy : Option HOutcome) :
    List Invoked × Except Nat Unit :=
  let trace := runUpdateLoop 0 hs
  match legacy with
  | none => (trace, Except.ok ())
  | some h =>
    match hrun h with
    | Except.ok _ => (trace ++ [Invoked.legacy], Except.ok ())
    | Except.error e => (trace ++ [Invoked.legacy], Except.error e)

/-- Program counter of one `ensureSession()` caller in the interleaved
model: about to call, suspended on the `initialize` future, suspended on the
`newSession` future, failed with a thrown error, or returned with a session
id. -/
inductive CallerPC
  | start
  | awaitInit
  | awaitSession
  | failed
  | done (sid : String)
deriving DecidableEq

/-- State of the interleaved two-caller `ensureSession()` machine: the shared
client fields, whether the `initialize` and `newSession` responses have
arrived, the two callers' program counters, and the number of `newSession`
RPC calls issued so far. -/
structure Sys where
  client : ClientState
  initResolved : Bool
  sessResolved : Bool
  pc1 : CallerPC
  pc2 : CallerPC
  nNewSession : Nat
deriving DecidableEq

/-- One caller's atomic step between suspension points, following the body
of `ensureSession()` (with `initialize()` inlined up to its first await):
memoized-future checks, spawn/connection setup, the cached-session fast
path, and the single-flight creation of the `newSession` future, which is
the only transition that increments the `newSession` call count. -/
def callerStep (env : AgentEnv) (s : Sys) (pc : CallerPC) :
    ClientState × CallerPC × Nat :=
  match pc with
  | CallerPC.start =>
    if s.client.initializationPromise.isSome then
      (s.client, CallerPC.awaitInit, s.nNewSession)
    else
      let c1 :=
        if s.client.connection.isNone then
          { s.client with agentProcess := some env.pid, connection := some env.connId }
        else s.client
      ({ c1 with initializationPromise := some env.connId },
       CallerPC.awaitInit, s.nNewSession)
  | CallerPC.awaitInit =>
    if s.initResolved then
      match s.client.sessionId with
      | some sid => (s.client, CallerPC.done sid, s.nNewSession)
      | none =>
        match s.client.connection with
        | none => (s.client, CallerPC.failed, s.nNewSession)
        | some _ =>
          match s.client.sessionPromise with
          | some _ => (s.client, CallerPC.awaitSession, s.nNewSession)
          | none =>
            match env.basePath with
            | none => (s.client, CallerPC.failed, s.nNewSession)
            | some _ =>
              ({ s.client with sessionPromise := some env.sessionId },
               CallerPC.awaitSession, s.nNewSession + 1)
    else (s.client, CallerPC.awaitInit, s.nNewSession)
  | CallerPC.awaitSession =>
    if s.sessResolved then
      match s.client.sessionPromise with
      | some sid => ({ s.client with sessionId := some sid }, CallerPC.done sid, s.nNewSession)
      | none => (s.client, CallerPC.awaitSession, s.nNewSession)
    else (s.client, CallerPC.awaitSession, s.nNewSession)
  | CallerPC.failed => (s.client, CallerPC.failed, s.nNewSession)
  | CallerPC.done sid => (s.client, CallerPC.done sid, s.nNewSession)

/-- Events the single-threaded event loop can schedule: run a caller's next
step, or deliver the agent's response to an issued `initialize` or
`newSession` RPC. -/
inductive Ev
  | step1
  | step2
  | resolveInitRpc
  | resolveSessionRpc
deriving DecidableEq

/-- One scheduler step of the interleaved machine. -/
def sysStep (env : AgentEnv) (s : Sys) (e : Ev) : Sys :=
  match e with
  | Ev.step1 =>
    let r := callerStep env s s.pc1
    { s with client := r.1, pc1 := r.2.1, nNewSession := r.2.2 }
  | Ev.step2 =>
    let r := callerStep env s s.pc2
    { s with client := r.1, pc2 := r.2.1, nNewSession := r.2.2 }
  | Ev.resolveInitRpc =>
    if s.client.initializationPromise.isSome then { s with initResolved := true } else s
  | Ev.resolveSessionRpc =>
    if s.client.sessionPromise.isSome then { s with sessResolved := true } else s

/-- Run the machine over a schedule of events. -/
def runSys (env : AgentEnv) (s : Sys) (evs : List Ev) : Sys :=
  evs.foldl (sysStep env) s

/-- Initial machine state: both callers about to invoke `ensureSession()`. -/
def sysInit (st0 : ClientState) : Sys :=
  { client := st0, initResolved := false, sessResolved := false,
    pc1 := CallerPC.start, pc2 := CallerPC.start, nNewSession := 0 }

/-- Invariant on the shared client fields: the `newSession` call count is
one exactly when the memoized future exists, and both the future and the
cached session id can only hold the session id the agent issues. -/
def ClientInv (env : AgentEnv) (c : ClientState) (n : Nat) : Prop :=
  (n = if c.sessionPromise.isSome then 1 else 0) ∧
  (∀ sid, c.sessionPromise = some sid → sid = env.sessionId) ∧
  (∀ sid, c.sessionId = some sid → sid = env.sessionId) ∧
  (c.sessionId.isSome → c.sessionPromise.isSome = true)

/-- Invariant on one caller: awaiting the session future implies it exists,
and a returned session id is the one the agent issued, with the future
retained. -/
def PcInv (env : AgentEnv) (c : ClientState) (pc : CallerPC) : Prop :=
  (pc = CallerPC.awaitSession → c.sessionPromise.isSome = true) ∧
  (∀ sid, pc = CallerPC.done sid → sid = env.sessionId ∧ c.sessionPromise.isSome = true)

/-- Full machine invariant. -/
def SysInv (env : AgentEnv) (s : Sys) : Prop :=
  ClientInv env s.client s.nNewSession ∧
  PcInv env s.client s.pc1 ∧ PcInv env s.client s.pc2

theorem pcInv_start (env : AgentEnv) (c : ClientState) : PcInv env c CallerPC.start := by
  constructor
  · intro hh; simp at hh
  · intro sid hh; simp at hh

theorem pcInv_awaitInit (env : AgentEnv) (c : ClientState) :
    PcInv env c CallerPC.awaitInit := by
  constructor
  · intro hh; simp at hh
  · intro sid hh; simp at hh

theorem pcInv_failed (env : AgentEnv) (c : ClientState) : PcInv env c CallerPC.failed := by
  constructor
  · intro hh; simp at hh
  · intro sid hh; simp at hh

theorem pcInv_awaitSession (env : AgentEnv) (c : ClientState)
    (h : c.sessionPromise.isSome = true) : PcInv env c CallerPC.awaitSession := by
  constructor
  · intro _; exact h
  · intro sid hh; simp at hh

theorem pcInv_done (env : AgentEnv) (c : ClientState) (sid : String)
    (h1 : sid = env.sessionId) (h2 : c.sessionPromise.isSome = true) :
    PcInv env c (CallerPC.done sid) := by
  constructor
  · intro hh; simp at hh
  · intro sid' hh
    injection hh with h
    subst h
    exact ⟨h1, h2⟩

theorem pcInv_mono (env : AgentEnv) {c c' : ClientState} {pc : CallerPC}
    (h : PcInv env c pc)
    (hmono : c.sessionPromise.isSome = true → c'.sessionPromise.isSome = true) :
    PcInv env c' pc :=
  ⟨fun hh => hmono (h.1 hh), fun sid hh => ⟨(h.2 sid hh).1, hmono (h.2 sid hh).2⟩⟩

theorem clientInv_congr (env : AgentEnv) {c c' : ClientState} {n : Nat}
    (h : ClientInv env c n) (hsp : c'.sessionPromise = c.sessionPromise)
    (hsid : c'.sessionId = c.sessionId) : ClientInv env c' n := by
  unfold ClientInv at h ⊢
  rw [hsp, hsid]
  exact h

theorem clientInv_createSession (env : AgentEnv) {c c' : ClientState} {n : Nat}
    (h : ClientInv env c n) (hnone : c.sessionPromise = none)
    (hsp : c'.sessionPromise = some env.sessionId)
    (hsid : c'.sessionId = c.sessionId) :
    ClientInv env c' (n + 1) := by
  obtain ⟨hn, _, hsidv, _⟩ := h
  rw [hnone] at hn
  simp at hn
  unfold ClientInv
  refine ⟨by simp [hn, hsp], ?_, ?_, ?_⟩
  · intro sid hh
    rw [hsp] at hh
    injection hh with hh
    exact hh.symm
  · intro sid hh
    rw [hsid] at hh
    exact hsidv sid hh
  · intro _
    simp [hsp]

theorem clientInv_cacheSession (env : AgentEnv) {c c' : ClientState} {n : Nat}
    {sid : String} (h : ClientInv env c n) (hsome : c.sessionPromise = some sid)
    (hsp : c'.sessionPromise = some sid) (hsid : c'.sessionId = some sid) :
    ClientInv env c' n := by
  obtain ⟨hn, hspv, _, _⟩ := h
  unfold ClientInv
  refine ⟨?_, ?_, ?_, ?_⟩
  · rw [hsp]
    rw [hsome] at hn
    simpa using hn
  · intro sid' hh
    rw [hsp] at hh
    injection hh with hh
    subst hh
    exact hspv sid hsome
  · intro sid' hh
    rw [hsid] at hh
    injection hh with hh
    subst hh
    exact hspv sid hsome
  · intro _
    simp [hsp]

theorem callerStep_start_proj (env : AgentEnv) (s : Sys) :
    (callerStep env s CallerPC.start).1.sessionPromise = s.client.sessionPromise ∧
    (callerStep env s CallerPC.start).1.sessionId = s.client.sessionId ∧
    (callerStep env s CallerPC.start).2.1 = CallerPC.awaitInit ∧
    (callerStep env s CallerPC.start).2.2 = s.nNewSession := by
  simp only [callerStep]
  split
  · simp
  · split <;> simp

theorem callerStep_preserves (env : AgentEnv) (s : Sys) (pc pcO : CallerPC)
    (hc : ClientInv env s.client s.nNewSession)
    (hpc : PcInv env s.client pc) (ho : PcInv env s.client pcO) :
    ClientInv env (callerStep env s pc).1 (callerStep env s pc).2.2 ∧
    PcInv env (callerStep env s pc).1 (callerStep env s pc).2.1 ∧
    PcInv env (callerStep env s pc).1 pcO := by
  cases pc with
  | start =>
    obtain ⟨e1, e2, e3, e4⟩ := callerStep_start_proj env s
    rw [e3, e4]
    exact ⟨clientInv_congr env hc e1 e2, pcInv_awaitInit env _,
      pcInv_mono env ho (by rw [e1]; exact id)⟩
  | awaitInit =>
    simp only [callerStep]
    by_cases hres : s.initResolved = true
    · rw [if_pos hres]
      cases h2 : s.client.sessionId with
      | some sid =>
        have hsidv := hc.2.2.1 sid h2
        have hps : s.client.sessionPromise.isSome = true :=
          hc.2.2.2 (by rw [h2]; rfl)
        exact ⟨hc, pcInv_done env _ sid hsidv hps, ho⟩
      | none =>
        cases h3 : s.client.connection with
        | none => exact ⟨hc, pcInv_failed env _, ho⟩
        | some cid =>
          cases h4 : s.client.sessionPromise with
          | some sid =>
            exact ⟨hc, pcInv_awaitSession env _ (by rw [h4]; rfl), ho⟩
          | none =>
            cases h5 : env.basePath with
            | none => exact ⟨hc, pcInv_failed env _, ho⟩
            | some bp =>
              refine ⟨clientInv_createSession env hc h4 rfl h2.symm, ?_, ?_⟩
              · exact pcInv_awaitSession env _ (by simp)
              · exact pcInv_mono env ho (fun _ => by simp)
    · rw [if_neg hres]
      exact ⟨hc, pcInv_awaitInit env _, ho⟩
  | awaitSession =>
    simp only [callerStep]
    by_cases hres : s.sessResolved = true
    · rw [if_pos hres]
      cases h4 : s.client.sessionPromise with
      | some sid =>
        refine ⟨clientInv_cacheSession env hc h4 rfl rfl, ?_, ?_⟩
        · exact pcInv_done env _ sid (hc.2.1 sid h4) (by simp [h4])
        · exact pcInv_mono env ho (fun h => by simp [h4])
      | none => exact ⟨hc, hpc, ho⟩
    · rw [if_neg hres]
      exact ⟨hc, hpc, ho⟩
  | failed => exact ⟨hc, hpc, ho⟩
  | done sid => exact ⟨hc, hpc, ho⟩

theorem sysInv_step (env : AgentEnv) (s : Sys) (e : Ev) (h : SysInv env s) :
    SysInv env (sysStep env s e) := by
  obtain ⟨hc, hp1, hp2⟩ := h
  cases e with
  | step1 =>
    obtain ⟨a, b, c⟩ := callerStep_preserves env s s.pc1 s.pc2 hc hp1 hp2
    exact ⟨a, b, c⟩
  | step2 =>
    obtain ⟨a, b, c⟩ := callerStep_preserves env s s.pc2 s.pc1 hc hp2 hp1
    exact ⟨a, c, b⟩
  | resolveInitRpc =>
    simp only [sysStep]
    split
    · exact ⟨hc, hp1, hp2⟩
    · exact ⟨hc, hp1, hp2⟩
  | resolveSessionRpc =>
    simp only [sysStep]
    split
    · exact ⟨hc, hp1, hp2⟩
    · exact ⟨hc, hp1, hp2⟩

theorem sysInv_run (env : AgentEnv) (evs : List Ev) (s : Sys) (h : SysInv env s) :
    SysInv env (runSys env s evs) := by
  induction evs generalizing s with
  | nil => exact h
  | cons e rest ih => exact ih (sysStep env s e) (sysInv_step env s e h)

theorem sysInv_init (env : AgentEnv) (st0 : ClientState)
    (h1 : st0.sessionId = none) (h2 : st0.sessionPromise = none) :
    SysInv env (sysInit st0) := by
  refine ⟨⟨?_, ?_, ?_, ?_⟩, pcInv_start env _, pcInv_start env _⟩
  · simp [sysInit, h2]
  · intro sid hh
    rw [sysInit] at hh
    simp at hh
    rw [h2] at hh
    simp at hh
  · intro sid hh
    rw [sysInit] at hh
    simp at hh
    rw [h1] at hh
    simp at hh
  · intro hh
    rw [sysInit] at hh
    simp [h1] at hh

theorem chStarts_append_left (p : List Char) (s q : List Char)
    (h : chStarts s (p ++ q) = true) : chStarts s p = true := by
  induction p generalizing s with
  | nil => cases s <;> simp [chStarts]
  | cons c ps ih =>
    cases s with
    | nil => simp [chStarts] at h
    | cons d ds =>
      simp only [List.cons_append, chStarts, Bool.and_eq_true] at h ⊢
      exact ⟨h.1, ih ds h.2⟩

theorem strStarts_append_left (s a t : String)
    (h : strStarts s (a ++ t) = true) : strStarts s a = true := by
  unfold strStarts at h ⊢
  have hd : (a ++ t).data = a.data ++ t.data := by
    cases a
    cases t
    rfl
  rw [hd] at h
  exact chStarts_append_left a.data s.data t.data h

/-- C1: any resolved relative path containing a `..` segment is rejected by
`ensureSafeRelative` with the invalid-params traversal error, and since every
non-sentinel return of `resolveVaultPath` (base-prefix strip, already
relative, or no-base fallback) flows through `ensureSafeRelative`, a path
returned by `resolveVaultPath` never contains a `..` segment. -/
theorem c1_no_traversal_escapes :
    (∀ p, ".." ∈ splitSegments p →
      ensureSafeRelative p =
        Except.error (RequestError.invalidParams "Path traversal is not allowed")) ∧
    (∀ basePath p r, resolveVaultPath basePath p = Except.ok r →
      ".." ∉ splitSegments r) := by
  constructor
  · intro p hp
    unfold ensureSafeRelative
    simp [hp]
  · intro basePath p r h
    cases basePath with
    | none =>
      simp only [resolveVaultPath] at h
      unfold resolveFallback at h
      exact (ensureSafeRelative_ok h).2
    | some b =>
      simp only [resolveVaultPath] at h
      unfold resolveWithBase at h
      by_cases hb : b = ""
      · rw [if_pos hb] at h
        unfold resolveFallback at h
        exact (ensureSafeRelative_ok h).2
      · rw [if_neg hb] at h
        split at h
        · injection h with h
          subst h
          decide
        · split at h
          · exact (ensureSafeRelative_ok h).2
          · split at h
            · exact (ensureSafeRelative_ok h).2
            · simp at h

/-- Witness for C1 at concrete inputs. -/
theorem c1_no_traversal_escapes_witness :
    ensureSafeRelative "a/../b" =
      Except.error (RequestError.invalidParams "Path traversal is not allowed") ∧
    ".." ∉ splitSegments "notes/todo.md" :=
  ⟨c1_no_traversal_escapes.1 "a/../b" (by decide),
   c1_no_traversal_escapes.2 (some "/vault") "/vault/notes/todo.md" "notes/todo.md" rfl⟩

/-- C2: with a usable vault base path, an absolute candidate that neither
equals the normalized base nor starts with it is rejected with the
invalid-params "Path is outside the vault" error. -/
theorem c2_absolute_outside_rejected (b p : String) (hb : b ≠ "")
    (habs : isAbsolutePath (normalizeSlashes p) = true)
    (hne : normalizeSlashes p ≠ vaultBaseNormalized b)
    (hns : strStarts (normalizeSlashes p) (vaultBaseNormalized b) = false) :
    resolveVaultPath (some b) p =
      Except.error (RequestError.invalidParams "Path is outside the vault") := by
  simp only [resolveVaultPath]
  unfold resolveWithBase
  rw [if_neg hb]
  have h2 : ¬ strStarts (normalizeSlashes p) (vaultBaseNormalized b ++ "/") = true := by
    intro hcon
    have := strStarts_append_left (normalizeSlashes p) (vaultBaseNormalized b) "/" hcon
    rw [hns] at this
    exact Bool.false_ne_true this
  rw [if_neg hne, if_neg h2, if_neg (by simp [habs])]

/-- Witness for C2 at a concrete absolute path outside the vault. -/
theorem c2_absolute_outside_rejected_witness :
    resolveVaultPath (some "/vault") "/etc/passwd" =
      Except.error (RequestError.invalidParams "Path is outside the vault") :=
  c2_absolute_outside_rejected "/vault" "/etc/passwd" (by decide) (by decide)
    (by decide) (by decide)

/-- C3: with no vault base path available, `resolveVaultPath` always takes
the relative fallback (strip leading slashes, normalize, traversal check),
so no input, not even an absolute path, is ever rejected as outside the
vault: the only possible error is the traversal rejection. -/
theorem c3_no_base_relative_fallback (p : String) :
    resolveVaultPath none p =
      ensureSafeRelative (obsidianNormalizePath (stripLeadingSlashes (normalizeSlashes p))) ∧
    (∀ e, resolveVaultPath none p = Except.error e →
      e = RequestError.invalidParams "Path traversal is not allowed") := by
  refine ⟨rfl, ?_⟩
  intro e h
  unfold resolveVaultPath resolveFallback at h
  exact ensureSafeRelative_error h

/-- Witness for C3: `/etc/passwd` resolves through the fallback, and the
only error the fallback produces is the traversal rejection. -/
theorem c3_no_base_relative_fallback_witness :
    resolveVaultPath none "/etc/passwd" =
      ensureSafeRelative
        (obsidianNormalizePath (stripLeadingSlashes (normalizeSlashes "/etc/passwd"))) ∧
    (RequestError.invalidParams "Path traversal is not allowed" : RequestError) =
      RequestError.invalidParams "Path traversal is not allowed" :=
  ⟨(c3_no_base_relative_fallback "/etc/passwd").1,
   (c3_no_base_relative_fallback "/../x").2
     (RequestError.invalidParams "Path traversal is not allowed") rfl⟩

/-- C8: a candidate equal (after separator normalization and trailing-slash
trimming) to the vault base path resolves to the empty-string sentinel, and
both file handlers reject it with invalid-params before any vault access
(empty operation trace). -/
theorem c8_vault_root_rejected (b p : String) (hb : b ≠ "")
    (heq : normalizeSlashes p = vaultBaseNormalized b) :
    resolveVaultPath (some b) p = Except.ok "" ∧
    (∀ vault line limit, readTextFileStep (some b) vault p line limit =
      (Except.error (RequestError.invalidParams "Path points to vault root"), [])) ∧
    (∀ vault content, writeTextFileStep (some b) vault p content =
      (Except.error (RequestError.invalidParams "Path points to vault root"), [])) := by
  have hres : resolveVaultPath (some b) p = Except.ok "" := by
    simp only [resolveVaultPath]
    unfold resolveWithBase
    rw [if_neg hb, if_pos heq]
  refine ⟨hres, ?_, ?_⟩
  · intro vault line limit
    unfold readTextFileStep
    rw [hres]
    rfl
  · intro vault content
    unfold writeTextFileStep
    rw [hres]
    rfl


/-- Witness for C8 at a concrete base path. -/
theorem c8_vault_root_rejected_witness :
    resolveVaultPath (some "/my/vault/") "/my/vault" = Except.ok "" ∧
    (∀ vault line limit, readTextFileStep (some "/my/vault/") vault "/my/vault" line limit =
      (Except.error (RequestError.invalidParams "Path points to vault root"), [])) ∧
    (∀ vault content, writeTextFileStep (some "/my/vault/") vault "/my/vault" content =
      (Except.error (RequestError.invalidParams "Path points to vault root"), [])) :=
  c8_vault_root_rejected "/my/vault/" "/my/vault" (by decide) (by decide)

/-- C7: `readTextFile` slicing — `line=5, limit=2` on a 10-line file yields
lines 5 and 6 rejoined with a plain newline; a start line beyond the file's
line count yields the empty string; with neither parameter the content comes
back unchanged. -/
theorem c7_read_slice :
    (∀ c, (splitLinesRN c).length = 10 →
      sliceTextByLine c (some 5) (some 2) =
        Except.ok (String.intercalate "\n" (((splitLinesRN c).drop 4).take 2))) ∧
    (∀ c (l : Int) (lim : Option Int), optIntInvalid (some l) = false →
      optIntInvalid lim = false → ((splitLinesRN c).length : Int) < l →
      sliceTextByLine c (some l) lim = Except.ok "") ∧
    (∀ c, sliceTextByLine c none none = Except.ok c) := by
  refine ⟨?_, ?_, ?_⟩
  · intro c h
    unfold sliceTextByLine
    simp only [show optIntInvalid (some 5) = false from by decide,
      show optIntInvalid (some 2) = false from by decide,
      Bool.false_eq_true, if_false, Option.isNone_some, Bool.false_and]
    rw [if_neg (by simp [h])]
    rfl
  · intro c l lim h1 h2 h3
    unfold sliceTextByLine
    simp only [h1, h2, Bool.false_eq_true, if_false, Option.isNone_some, Bool.false_and]
    rw [if_pos (by simp only [Option.getD_some]; omega)]
  · intro c
    rfl

/-- Witness for C7 on a concrete ten-line file. -/
theorem c7_read_slice_witness :
    sliceTextByLine "l1\nl2\nl3\nl4\nl5\nl6\nl7\nl8\nl9\nl10" (some 5) (some 2) =
      Except.ok (String.intercalate "\n"
        (((splitLinesRN "l1\nl2\nl3\nl4\nl5\nl6\nl7\nl8\nl9\nl10").drop 4).take 2)) ∧
    sliceTextByLine "l1\nl2\nl3\nl4\nl5\nl6\nl7\nl8\nl9\nl10" (some 11) none =
      Except.ok "" ∧
    sliceTextByLine "l1\nl2\nl3\nl4\nl5\nl6\nl7\nl8\nl9\nl10" none none =
      Except.ok "l1\nl2\nl3\nl4\nl5\nl6\nl7\nl8\nl9\nl10" :=
  ⟨c7_read_slice.1 "l1\nl2\nl3\nl4\nl5\nl6\nl7\nl8\nl9\nl10" (by decide),
   c7_read_slice.2.1 "l1\nl2\nl3\nl4\nl5\nl6\nl7\nl8\nl9\nl10" 11 none
     (by decide) (by decide) (by decide),
   c7_read_slice.2.2 "l1\nl2\nl3\nl4\nl5\nl6\nl7\nl8\nl9\nl10"⟩

/-- C9: for any notification, two registered session-update subscribers are
both invoked, in registration order and sequentially, whatever either
subscriber's outcome and whatever the legacy callback does: the first two
entries of the delivery trace are always registry subscriber 0 then registry
subscriber 1, even when subscriber 0 throws. -/
theorem c9_fanout_order (h1 h2 : HOutcome) (legacy : Option HOutcome) :
    (sessionUpdateStep [h1, h2] legacy).1.take 2 =
      [Invoked.registry 0, Invoked.registry 1] := by
  rcases h1 with _ | e1 <;> rcases h2 with _ | e2 <;>
    rcases legacy with _ | (_ | e3) <;> rfl

/-- C10: the legacy constructor-supplied callback runs after the whole
subscriber registry and outside any try/catch: when it throws, the
notification handler rejects with that same error (the trace shows every
registry subscriber already ran), whereas registry subscriber errors and an
absent or succeeding legacy callback leave the handler resolving
successfully. -/
theorem c10_legacy_unwrapped (hs : List HOutcome) (e : Nat) :
    (sessionUpdateStep hs (some (HOutcome.hthrow e))).1 =
      runUpdateLoop 0 hs ++ [Invoked.legacy] ∧
    (sessionUpdateStep hs (some (HOutcome.hthrow e))).2 = Except.error e ∧
    (sessionUpdateStep hs (some HOutcome.hok)).2 = Except.ok () ∧
    (sessionUpdateStep hs none).2 = Except.ok () :=
  ⟨rfl, rfl, rfl, rfl⟩

/-- The client state used to evaluate the disconnect escalation bug. -/
def c4State : ClientState :=
  { agentProcess := some 7, connection := some 3, initializationPromise := some 3,
    sessionPromise := some "s1", sessionId := some "s1" }

/-- C4 evaluation: `disconnect()` on an owned process (pid 7) does send the
end-of-input and the graceful SIGTERM to that process and arms the 5-second
timer, but because `disconnect()` nulls `this.agentProcess` synchronously,
the timer callback finds no process and sends no SIGKILL at all — and if a
new process (pid 8) was spawned before the timer fired, the SIGKILL would
hit that new process instead of the disconnected one. -/
theorem c4_sigkill_never_hits_disconnected_process :
    (disconnectStep c4State).2.1 =
      [ProcAction.endStdin 7, ProcAction.kill 7 Sig.sigterm] ∧
    (disconnectStep c4State).2.2 = true ∧
    fireDisconnectTimeout (disconnectStep c4State).1 = [] ∧
    fireDisconnectTimeout { (disconnectStep c4State).1 with agentProcess := some 8 } =
      [ProcAction.kill 8 Sig.sigkill] :=
  ⟨rfl, rfl, rfl, rfl⟩

/-- C5: an exit event of the currently-owned process clears every cached
field, and the next `ensureSession()` performs a fresh `initialize` followed
by a fresh `newSession`, returning the newly issued session id — never the
dead process's stale one. -/
theorem c5_exit_invalidates_state (env : AgentEnv) (st : ClientState)
    (p : Nat) (bp : String)
    (hp : st.agentProcess = some p) (hbp : env.basePath = some bp) :
    (onProcessExit st p).connection = none ∧
    (onProcessExit st p).initializationPromise = none ∧
    (onProcessExit st p).sessionPromise = none ∧
    (onProcessExit st p).sessionId = none ∧
    (ensureSessionStep env (onProcessExit st p)).2.1 =
      [RpcCall.rpcInit, RpcCall.rpcNewSession] ∧
    (ensureSessionStep env (onProcessExit st p)).2.2 = Except.ok env.sessionId ∧
    (∀ old, st.sessionId = some old → old ≠ env.sessionId →
      (ensureSessionStep env (onProcessExit st p)).2.2 ≠ Except.ok old) := by
  have hreset : onProcessExit st p = clearedState := by
    unfold onProcessExit resetConnectionState
    rw [hp]
    simp
  rw [hreset]
  have hrun : ensureSessionStep env clearedState =
      ({ agentProcess := some env.pid, connection := some env.connId,
         initializationPromise := some env.connId,
         sessionPromise := some env.sessionId, sessionId := some env.sessionId },
       [RpcCall.rpcInit, RpcCall.rpcNewSession], Except.ok env.sessionId) := by
    unfold ensureSessionStep initializeStep clearedState
    simp [hbp]
  refine ⟨rfl, rfl, rfl, rfl, ?_, ?_, ?_⟩
  · rw [hrun]
  · rw [hrun]
  · intro old hold hne hcon
    rw [hrun] at hcon
    injection hcon with hcon
    exact hne hcon.symm

/-- Environment for the C5 witness. -/
def c5Env : AgentEnv :=
  { pid := 1, connId := 2, sessionId := "fresh", basePath := some "/v" }

/-- Client state owning process 7 with a stale cached session, for the C5
witness. -/
def c5State : ClientState :=
  { agentProcess := some 7, connection := some 3, initializationPromise := some 3,
    sessionPromise := some "stale", sessionId := some "stale" }

/-- Witness for C5 at a concrete state and environment. -/
theorem c5_exit_invalidates_state_witness :
    (onProcessExit c5State 7).connection = none ∧
    (onProcessExit c5State 7).initializationPromise = none ∧
    (onProcessExit c5State 7).sessionPromise = none ∧
    (onProcessExit c5State 7).sessionId = none ∧
    (ensureSessionStep c5Env (onProcessExit c5State 7)).2.1 =
      [RpcCall.rpcInit, RpcCall.rpcNewSession] ∧
    (ensureSessionStep c5Env (onProcessExit c5State 7)).2.2 =
      Except.ok c5Env.sessionId ∧
    (∀ old, c5State.sessionId = some old → old ≠ c5Env.sessionId →
      (ensureSessionStep c5Env (onProcessExit c5State 7)).2.2 ≠ Except.ok old) :=
  c5_exit_invalidates_state c5Env c5State 7 "/v" rfl rfl

/-- C6: under every interleaving of two concurrent `ensureSession()` callers
starting with no cached session id and no in-flight `newSession` future, if
both callers complete, they return the same session id (the one the agent
issued) and exactly one `newSession` RPC call was made. -/
theorem c6_concurrent_single_newSession (env : AgentEnv) (st0 : ClientState)
    (h1 : st0.sessionId = none) (h2 : st0.sessionPromise = none)
    (evs : List Ev) (a b : String)
    (ha : (runSys env (sysInit st0) evs).pc1 = CallerPC.done a)
    (hb : (runSys env (sysInit st0) evs).pc2 = CallerPC.done b) :
    a = b ∧ a = env.sessionId ∧
    (runSys env (sysInit st0) evs).nNewSession = 1 := by
  have hin := sysInv_run env evs (sysInit st0) (sysInv_init env st0 h1 h2)
  obtain ⟨⟨hn, _, _, _⟩, hp1, hp2⟩ := hin
  have ha' := hp1.2 a ha
  have hb' := hp2.2 b hb
  refine ⟨ha'.1.trans hb'.1.symm, ha'.1, ?_⟩
  rw [hn, if_pos ha'.2]

/-- Environment for the C6 witness. -/
def c6Env : AgentEnv :=
  { pid := 1, connId := 2, sessionId := "s1", basePath := some "/v" }

/-- A schedule in which the second caller starts before the first completes:
both run their first step, the `initialize` response arrives, both resume
(the first creates the `newSession` future, the second finds it memoized),
the `newSession` response arrives, and both complete. -/
def c6Sched : List Ev :=
  [Ev.step1, Ev.step2, Ev.resolveInitRpc, Ev.step1, Ev.step2,
   Ev.resolveSessionRpc, Ev.step1, Ev.step2]

/-- Witness for C6 on a concrete overlapping schedule. -/
theorem c6_concurrent_single_newSession_witness :
    ("s1" : String) = "s1" ∧ ("s1" : String) = c6Env.sessionId ∧
    (runSys c6Env (sysInit clearedState) c6Sched).nNewSession = 1 :=
  c6_concurrent_single_newSession c6Env clearedState rfl rfl c6Sched "s1" "s1"
    (by decide) (by decide)
